import Mathlib

/-!
# Verification of the Sky-Scraper flight-search provider

A shallow embedding of `backend/flights/providers/skyscraper.py`:
the field extractors, offer normalizer, collection processor
(dedupe / filter / sort / limit / meta), price-history reconciler and
the `search_flights` orchestrator, together with theorems about them.

Modelling conventions:
* Python floats are modelled as `ℚ` (no claim depends on binary rounding).
* Python strings are `String`, manipulated through their character lists so
  that every operation is kernel-computable; the inputs in scope are ASCII.
* The outbound HTTP calls are oracles: an `Env` record carries the value each
  upstream fetch (request + JSON parse + shape normalization) would produce,
  as an `Except ProvErr _`.  The process-wide cache is likewise an oracle for
  reads, and writes are returned explicitly in the outcome.
* `dict` insertion-order semantics are modelled with association lists.
-/

deriving instance DecidableEq for Except

namespace FlightSearch

/-! ## Python string primitives (ASCII) -/

/-- Python `str.split(sep)` for a one-character separator, on char lists. -/
def splitOnChar (sep : Char) (cs : List Char) : List (List Char) :=
  cs.foldr
    (fun c acc =>
      match acc with
      | [] => if c = sep then [[], []] else [[c]]
      | h :: t => if c = sep then [] :: h :: t else (c :: h) :: t)
    [[]]

/-- Python `str.strip()` (ASCII whitespace). -/
def pyStrip (cs : List Char) : List Char :=
  ((cs.dropWhile Char.isWhitespace).reverse.dropWhile Char.isWhitespace).reverse

/-- Python `str.upper()` restricted to ASCII letters. -/
def pyUpperChar (c : Char) : Char :=
  if 'a' ≤ c ∧ c ≤ 'z' then Char.ofNat (c.toNat - 32) else c

def pyUpper (cs : List Char) : List Char := cs.map pyUpperChar

/-- `value.strip().upper()` as used on airport / entity codes. -/
def stripUpper (s : String) : String := ⟨pyUpper (pyStrip s.data)⟩

/-- Python truthiness of an optional string (`None` and `""` are falsy). -/
def isTruthy : Option String → Bool
  | none => false
  | some s => !s.data.isEmpty

/-- Python `a or b` on optional strings: `a` unless it is falsy. -/
def pyOr (a b : Option String) : Option String :=
  if isTruthy a then a else b

/-- Python `a or b` where the fallback is a plain string. -/
def pyOrS (a : Option String) (b : String) : String :=
  match a with
  | some s => if s.data.isEmpty then b else s
  | none => b

/-! ## `_parse_price` (the `extractPrice` field extractor)

`PRICE_RE = re.compile(r"[^0-9.]")`; `_parse_price` substitutes it away and
calls `float` on what remains.  `PyVal` models the Python value given to it. -/

inductive PyVal where
  | pyNone
  | num (q : ℚ)
  | str (s : String)
  | other
deriving DecidableEq, Repr

inductive PyExn where
  | valueError
deriving DecidableEq, Repr

/-- `PRICE_RE.sub("", value)`: drop every character that is not a digit or dot. -/
def cleanPriceChars (cs : List Char) : List Char :=
  cs.filter (fun c => c.isDigit || c == '.')

/-- Digit run to a natural number (`foldl`, most significant first). -/
def digitsVal (cs : List Char) : ℕ :=
  cs.foldl (fun a c => a * 10 + (c.toNat - 48)) 0

/-- Value of a digits-and-dots literal split at its (single) dot. -/
def decimalVal (cs : List Char) : ℚ :=
  match splitOnChar '.' cs with
  | [w] => mkRat (digitsVal w) 1
  | [w, f] => mkRat (digitsVal (w ++ f)) (10 ^ f.length)
  | _ => 0

/-- Python `float` on a non-empty string of digits and dots: it succeeds iff
there is at most one dot and at least one digit, else raises `ValueError`. -/
def pyFloatOfCleaned (cs : List Char) : Option ℚ :=
  if cs.count '.' ≤ 1 && cs.any Char.isDigit then some (decimalVal cs) else none

/-- `skyscraper._parse_price`.  The `.error` case is the uncaught `ValueError`
raised by `float(cleaned)` when the cleaned string is non-empty but invalid. -/
def _parse_price : PyVal → Except PyExn ℚ
  | .pyNone => .ok 0
  | .num q => .ok q
  | .str s =>
    let cleaned := cleanPriceChars s.data
    if cleaned.isEmpty then .ok 0
    else
      match pyFloatOfCleaned cleaned with
      | some q => .ok q
      | none => .error .valueError
  | .other => .ok 0

/-! ## Canonical data model

`Segment` is the dict appended to `segments` in `search_flights` (lines
800-808); `Offer` the dict appended to `offers` (lines 882-891).  The
upstream probe chains (`departureAirportCode` / `from` / `origin`, airline
as string or object, `_iso_dt` time repair) resolve alternate upstream
spellings into exactly these fields; raw segments are modelled at that
resolved granularity (`RawSeg`), which is what every claim quantifies over. -/

structure Segment where
  fromCode : Option String
  toCode : Option String
  departAt : Option String
  arriveAt : Option String
  airline : Option String
  flightNumber : Option String
  durationMinutes : Int
deriving DecidableEq, Repr

structure Airline where
  code : String
  name : String
deriving DecidableEq, Repr

structure Price where
  total : ℚ
  currency : String
deriving DecidableEq, Repr

structure Offer where
  id : String
  price : Price
  stops : ℕ
  durationMinutes : Int
  airlines : List Airline
  segments : List Segment
  departAt : Option String
  arriveAt : Option String
deriving DecidableEq, Repr

structure PricePoint where
  date : String
  price : ℚ
deriving DecidableEq, Repr

/-- Python-dict-with-insertion-order as an association list:
`m[k] = v` updates in place when the key exists, else appends. -/
def updateAssoc {β : Type} (m : List (String × β)) (k : String) (v : β) :
    List (String × β) :=
  if m.any (fun p => p.1 = k) then
    m.map (fun p => if p.1 = k then (k, v) else p)
  else m ++ [(k, v)]

/-- `skyscraper._compute_duration_minutes`: sum of `durationMinutes`. -/
def _compute_duration_minutes (segments : List Segment) : Int :=
  segments.foldl (fun total s => total + s.durationMinutes) 0

abbrev SegKeyT :=
  Option String × Option String × Option String × Option String × Option String

abbrev OfferKeyT := ℚ × ℕ × Option String × Option String × List SegKeyT

instance : DecidableEq SegKeyT := inferInstance

instance : DecidableEq (List SegKeyT) := inferInstance

instance : DecidableEq OfferKeyT := inferInstance

/-- The dedupe key of lines 128-143: price total, stops, offer-level
depart/arrive, and the ordered per-segment (from, to, depart, arrive,
airline) tuples. -/
def offerKey (o : Offer) : OfferKeyT :=
  (o.price.total, o.stops, o.departAt, o.arriveAt,
    o.segments.map fun s =>
      ((s.fromCode, s.toCode, s.departAt, s.arriveAt, s.airline) : SegKeyT))

/-- `skyscraper._dedupe_offers`: keep the first offer seen for each key. -/
def dedupeGo (seen : List OfferKeyT) :
    List Offer → List Offer
  | [] => []
  | o :: rest =>
    if offerKey o ∈ seen then dedupeGo seen rest
    else o :: dedupeGo (offerKey o :: seen) rest

def _dedupe_offers (offers : List Offer) : List Offer := dedupeGo [] offers

/-- `skyscraper._sort_offers`.  Python `sorted` is a stable ascending sort by
the given key, which is exactly `List.insertionSort` with the key's `≤`. -/
def _sort_offers (offers : List Offer) (sortBy : String) : List Offer :=
  if sortBy = "cheapest" then
    offers.insertionSort fun a b => a.price.total ≤ b.price.total
  else if sortBy = "shortest" then
    offers.insertionSort fun a b => a.durationMinutes ≤ b.durationMinutes
  else if sortBy = "least_stops" then
    offers.insertionSort fun a b => a.stops ≤ b.stops
  else offers

instance : IsTotal Offer fun a b => a.price.total ≤ b.price.total :=
  ⟨fun _ _ => le_total _ _⟩

instance : IsTrans Offer fun a b => a.price.total ≤ b.price.total :=
  ⟨fun _ _ _ h1 h2 => le_trans h1 h2⟩

instance : IsTotal Offer fun a b => a.durationMinutes ≤ b.durationMinutes :=
  ⟨fun _ _ => le_total _ _⟩

instance : IsTrans Offer fun a b => a.durationMinutes ≤ b.durationMinutes :=
  ⟨fun _ _ _ h1 h2 => le_trans h1 h2⟩

instance : IsTotal Offer fun a b => a.stops ≤ b.stops :=
  ⟨fun _ _ => le_total _ _⟩

instance : IsTrans Offer fun a b => a.stops ≤ b.stops :=
  ⟨fun _ _ _ h1 h2 => le_trans h1 h2⟩

/-- `skyscraper._offer_depart_date`: date part of the first segment's
`departAt` (`split("T")[0]`); `None`/empty timestamps yield no date. -/
def _offer_depart_date (offer : Offer) : Option String :=
  match offer.segments with
  | [] => none
  | s :: _ =>
    match s.departAt with
    | none => none
    | some d =>
      if d.data.isEmpty then none
      else some ⟨d.data.takeWhile (· ≠ 'T')⟩

/-- `skyscraper._build_offer_curve`: per depart date keep the minimum price
total, then sort the (date, price) items by date. -/
def _build_offer_curve (offers : List Offer) : List PricePoint :=
  let m : List (String × ℚ) :=
    offers.foldl
      (fun acc o =>
        match _offer_depart_date o with
        | none => acc
        | some d =>
          let p := o.price.total
          match acc.find? (fun kv => kv.1 = d) with
          | some prev => if p < prev.2 then updateAssoc acc d p else acc
          | none => acc ++ [(d, p)])
      []
  (m.insertionSort fun a b => a.1 ≤ b.1).map fun kv => ⟨kv.1, kv.2⟩

/-! ## ISO date parsing for `_series_date_span_days`

`datetime.fromisoformat` on the `YYYY-MM-DD` strings this provider produces:
proleptic-Gregorian ordinal, `none` on anything malformed. -/

def isLeapYear (y : ℕ) : Bool :=
  (y % 4 = 0 && !(y % 100 = 0)) || y % 400 = 0

def daysInMonth (y m : ℕ) : ℕ :=
  if m = 2 then (if isLeapYear y then 29 else 28)
  else if m = 4 ∨ m = 6 ∨ m = 9 ∨ m = 11 then 30
  else 31

def daysBeforeYear (y : ℕ) : ℕ :=
  365 * (y - 1) + (y - 1) / 4 - (y - 1) / 100 + (y - 1) / 400

def daysBeforeMonth (y m : ℕ) : ℕ :=
  (List.range (m - 1)).foldl (fun a i => a + daysInMonth y (i + 1)) 0

def parseISODate (s : String) : Option Int :=
  match splitOnChar '-' s.data with
  | [ys, ms, ds] =>
    if ys.length = 4 ∧ ms.length = 2 ∧ ds.length = 2 ∧
        (ys ++ ms ++ ds).all Char.isDigit then
      let y := digitsVal ys
      let m := digitsVal ms
      let d := digitsVal ds
      if 1 ≤ y ∧ 1 ≤ m ∧ m ≤ 12 ∧ 1 ≤ d ∧ d ≤ daysInMonth y m then
        some ((daysBeforeYear y + daysBeforeMonth y m + d : ℕ) : Int)
      else none
    else none
  | _ => none

/-- `skyscraper._series_date_span_days`: `(max - min).days` over the points
whose `date` parses, `0` when fewer than two parse. -/
def _series_date_span_days (series : List PricePoint) : Int :=
  let dates := series.filterMap fun p => parseISODate p.date
  match dates with
  | [] => 0
  | d :: rest =>
    if rest.isEmpty then 0
    else rest.foldl max d - rest.foldl min d

/-- `skyscraper._should_override_curve` (lines 204-213). -/
def _should_override_curve (offersCurve existingCurve : List PricePoint) : Bool :=
  if offersCurve.length < 2 then false
  else if existingCurve.isEmpty then true
  else if 5 ≤ offersCurve.length then true
  else if existingCurve.length < offersCurve.length then
    decide (_series_date_span_days existingCurve < _series_date_span_days offersCurve)
  else false

/-! ## Airport / entity code helpers -/

/-- `skyscraper._to_everywhere_entity`: 3-letter codes get an `A` suffix. -/
def _to_everywhere_entity : Option String → Option String
  | none => none
  | some s =>
    if s.data.isEmpty then none
    else
      let v := stripUpper s
      if v.data.length = 3 then some ⟨v.data ++ ['A']⟩ else some v

/-- `CITY_TO_DEFAULT_AIRPORT` (lines 33-37). -/
def CITY_TO_DEFAULT_AIRPORT : String → Option String
  | "NYC" => some "JFK"
  | "LON" => some "LHR"
  | "PAR" => some "CDG"
  | _ => none

/-- `skyscraper._to_google_airport`: entity ids `XXXA` drop the suffix, then
known city codes map to a default airport, anything else passes through. -/
def _to_google_airport : Option String → Option String
  | none => none
  | some s =>
    if s.data.isEmpty then none
    else
      let v := stripUpper s
      let v := if v.data.length = 4 ∧ v.data.getLast? = some 'A' then ⟨v.data.take 3⟩ else v
      some ((CITY_TO_DEFAULT_AIRPORT v).getD v)

/-! ## Query parameters and environment oracles -/

/-- An optional integer parameter as received: absent, a parsed value, or a
value on which `int(...)` raises (`try/except` turns the latter into the
default). -/
inductive IntParam where
  | absent
  | val (n : Int)
  | bad
deriving DecidableEq, Repr

/-- Lines 704-710: `int(max_stops)` with `None` on absence or parse failure. -/
def resolveMaxStops : IntParam → Option Int
  | .absent => none
  | .bad => none
  | .val n => some n

/-- Lines 898-902: `int(raw_limit)` defaulting to 50 on absence / failure. -/
def resolveLimit : IntParam → Int
  | .absent => 50
  | .bad => 50
  | .val n => n

/-- Lines 712-723 (list form): strip/upper the entries, drop blank ones, and
treat an empty result as "no filter" (`set(...) if allowed_airlines else None`). -/
def resolveAllowedAirlines : Option (List String) → Option (List String)
  | none => none
  | some l =>
    let processed := (l.filter fun x => !(pyStrip x.data).isEmpty).map stripUpper
    if processed.isEmpty then none else some processed

structure Params where
  origin : Option String
  destination : Option String
  departDate : String
  returnDate : Option String
  adults : Int
  cabin : Option String
  currency : Option String
  sort : Option String
  limit : IntParam
  maxStops : IntParam
  allowedAirlines : Option (List String)
  bypassCache : Bool
deriving DecidableEq, Repr

/-- One upstream segment dict, at resolved-field granularity (the
`departureAirportCode`/`from`/`origin` probe chains, airline-as-string-or-dict
resolution and `_iso_dt` timestamp composition collapse into these fields;
none of the claims concerns those chains). -/
structure RawSeg where
  fromCode : Option String
  toCode : Option String
  departAt : Option String
  arriveAt : Option String
  airlineCode : Option String
  airlineName : Option String
  flightNumber : Option String
  durationMinutes : Option Int
deriving DecidableEq, Repr

/-- One raw flight record from `_iter_google_flights`: the price value handed
to `_parse_price` (after its `or`-chain), the direct `segments`, the
`legs[].segments[]` fallback, and the vendor id `or`-chain result. -/
structure RawOffer where
  priceVal : PyVal
  segments : List RawSeg
  legs : List (List RawSeg)
  vendorId : Option String
deriving DecidableEq, Repr

structure ProvErr where
  message : String
  statusCode : Int
deriving DecidableEq, Repr

inductive SearchErr where
  | provider (e : ProvErr)
  | valueError
deriving DecidableEq, Repr

structure StopsCounts where
  zero : ℕ
  one : ℕ
  twoPlus : ℕ
deriving DecidableEq, Repr

structure Meta where
  minPrice : Option ℚ
  maxPrice : Option ℚ
  airlines : List Airline
  stopsCounts : StopsCounts
  priceHistory : List PricePoint
  priceHistorySource : String
  priceHistoryFilterAware : Bool
  priceHistoryPoints : ℕ
  cached : Bool
  cacheAgeSeconds : Option Int
  cacheTtlSeconds : Option Int
deriving DecidableEq, Repr

structure QueryEcho where
  origin : Option String
  destination : Option String
  departDate : Option String
  returnDate : Option String
  adults : Option Int
  cabin : Option String
  currency : String
deriving DecidableEq, Repr

structure SearchResult where
  query : QueryEcho
  offers : List Offer
  meta : Meta
deriving DecidableEq, Repr

/-- A response-cache entry: `{"payload": ..., "cached_at": ...}`, or a legacy
bare payload (modelled by `cachedAt = none`, which the code treats the same). -/
structure RespEntry where
  payload : SearchResult
  cachedAt : Option ℚ
deriving DecidableEq, Repr

/-- A curve-cache entry: the current `{"data": ..., "cached_at": ...}` shape
or a legacy plain list. -/
inductive CurveCached where
  | dict (data : List PricePoint) (cachedAt : Option ℚ)
  | plain (l : List PricePoint)
deriving DecidableEq, Repr

/-- One entry of `data.flightQuotes.results` from search-everywhere, at
resolved-field granularity: `localDepartureDate` is the outbound leg's date
(`none` covers every skip case of lines 577-590 — non-dict item, missing
content or outbound leg, non-string or empty date), `rawPrice` is
`content.rawPrice` when numeric, and `price` the `content.price` value that
is otherwise handed to `_parse_price` (line 593) — where a malformed string
raises an uncaught `ValueError`. -/
structure QuoteItem where
  localDepartureDate : Option String
  rawPrice : Option ℚ
  price : PyVal
deriving DecidableEq, Repr

/-- The quote loop of `_normalize_price_history_from_everywhere`
(lines 577-597): per date keep the lowest price, where the price is the
numeric `rawPrice` if present and otherwise `_parse_price(content.price)`,
whose `ValueError` propagates out of the function. -/
def everywhereGo (acc : List (String × ℚ)) :
    List QuoteItem → Except PyExn (List (String × ℚ))
  | [] => .ok acc
  | item :: rest =>
    match item.localDepartureDate with
    | none => everywhereGo acc rest
    | some d =>
      if d.data.isEmpty then everywhereGo acc rest
      else
        match (match item.rawPrice with
               | some q => Except.ok q
               | none => _parse_price item.price) with
        | .error e => .error e
        | .ok p =>
          let acc' :=
            match acc.find? (fun kv => kv.1 = d) with
            | some prev => if p < prev.2 then updateAssoc acc d p else acc
            | none => acc ++ [(d, p)]
          everywhereGo acc' rest

/-- `skyscraper._normalize_price_history_from_everywhere`: lowest price per
departure date, sorted by date; `.error` is the uncaught `ValueError` a
malformed quote price raises inside the loop. -/
def _normalize_price_history_from_everywhere (results : List QuoteItem) :
    Except PyExn (List PricePoint) :=
  match everywhereGo [] results with
  | .error e => .error e
  | .ok m => .ok ((m.insertionSort fun a b => a.1 ≤ b.1).map fun kv => ⟨kv.1, kv.2⟩)

/-- The effectful surroundings of one `search_flights` call: configuration,
the two cache reads, and the outcome each upstream fetch would produce.
`listFetch` covers request + JSON parse + `status:false` check +
`_iter_google_flights`; `graphFetch` covers request + JSON parse +
`_normalize_price_history_from_google_price_graph` (which performs only
`isinstance` checks, so it can fail only with a `ProviderError`);
`everywhereFetch` covers request + JSON parse +
`_extract_flightquote_results` and yields the raw quote items — their
price normalization (which can additionally raise `ValueError`) is embedded
separately as `_normalize_price_history_from_everywhere`. -/
structure Env where
  apiKey : Bool
  defaultCurrency : String
  now : ℚ
  respCache : Option RespEntry
  curveCache : Option CurveCached
  listFetch : Except ProvErr (List RawOffer)
  graphFetch : Except ProvErr (List PricePoint)
  everywhereFetch : Except ProvErr (List QuoteItem)
deriving DecidableEq

def RESPONSE_CACHE_TTL : Int := 300
def GRAPH_CACHE_TTL : Int := 900

/-- Python `int()` on a rational: truncation toward zero. -/
def pyInt (q : ℚ) : Int := if 0 ≤ q then q.floor else -((-q).floor)

/-- `int(now_ts - cached_at) if cached_at else None` (note `0.0` is falsy). -/
def ageOf (now : ℚ) (cachedAt : Option ℚ) : Option Int :=
  match cachedAt with
  | some t => if t ≠ 0 then some (pyInt (now - t)) else none
  | none => none

/-! ## Offer normalization (lines 756-891) -/

/-- Lexicographic order on string pairs, as Python compares 2-tuples. -/
def pairLeProp (a b : String × String) : Prop :=
  a.1 < b.1 ∨ (a.1 = b.1 ∧ a.2 ≤ b.2)

instance : DecidableRel pairLeProp := fun a b => by
  unfold pairLeProp; infer_instance

/-- One iteration of the segment loop: append the built segment dict and
record `seg_airlines[code] = airline_name or airline_code` for truthy codes. -/
def segStep (qpOrigin qpDestination : Option String)
    (acc : List Segment × List (String × String)) (s : RawSeg) :
    List Segment × List (String × String) :=
  let air :=
    match s.airlineCode with
    | some c => if c.data.isEmpty then acc.2 else updateAssoc acc.2 c (pyOrS s.airlineName c)
    | none => acc.2
  let seg : Segment :=
    { fromCode := pyOr s.fromCode qpOrigin
      toCode := pyOr s.toCode qpDestination
      departAt := s.departAt
      arriveAt := s.arriveAt
      airline := s.airlineCode
      flightNumber := s.flightNumber
      durationMinutes := s.durationMinutes.getD 0 }
  (acc.1 ++ [seg], air)

/-- `if max_stops is not None and stops > max_stops: continue` -/
def matchesMaxStops (maxStops : Option Int) (stops : ℕ) : Bool :=
  match maxStops with
  | none => true
  | some m => decide ((stops : Int) ≤ m)

/-- `seg_codes = [c for c in seg_airlines.keys() if c]`; keep the offer only
if that list is non-empty and every code is allowed. -/
def matchesAirlines (allowed : Option (List String))
    (segAirlines : List (String × String)) : Bool :=
  match allowed with
  | none => true
  | some aset =>
    let segCodes := (segAirlines.map Prod.fst).filter fun c => !c.data.isEmpty
    !segCodes.isEmpty && segCodes.all fun c => aset.contains c

/-- `_short_offer_id`: `"off_"` plus 12 hex chars of SHA-1 of the vendor id.
The digest is abstracted to the vendor id itself (a deterministic, injective
stand-in; no claim concerns the hash). -/
def _short_offer_id (vendorId : String) : String := "off_" ++ vendorId

/-- Normalize one raw record into an `Offer`, or exclude it (`.ok none`), or
propagate the `ValueError` an invalid price string raises in `float`. -/
def normalizeOne (qpOrigin qpDestination : Option String) (maxStops : Option Int)
    (allowed : Option (List String)) (defaultCurrency : String) (idx : ℕ)
    (r : RawOffer) : Except PyExn (Option Offer) :=
  match _parse_price r.priceVal with
  | .error e => .error e
  | .ok priceTotal =>
    let rawSegs := if r.segments.isEmpty then r.legs.flatten else r.segments
    let sa := rawSegs.foldl (segStep qpOrigin qpDestination) ([], [])
    let segments := sa.1
    let segAirlines := sa.2
    -- lines 854-858: with a stop/airline filter active, a record that yielded
    -- zero segments is skipped outright
    if segments.isEmpty && (maxStops.isSome || allowed.isSome) then .ok none
    else if !matchesMaxStops maxStops (segments.length - 1) then .ok none
    else if !matchesAirlines allowed segAirlines then .ok none
    else
      let vendorId := pyOrS r.vendorId ("idx_" ++ toString idx)
      .ok (some
        { id := _short_offer_id vendorId
          price := { total := priceTotal, currency := defaultCurrency }
          stops := segments.length - 1   -- max(len(segments) - 1, 0) in ℕ
          durationMinutes := _compute_duration_minutes segments
          airlines := (segAirlines.insertionSort pairLeProp).map fun p => ⟨p.1, p.2⟩
          segments := segments
          departAt := match segments with | [] => none | s :: _ => s.departAt
          arriveAt := match segments.getLast? with | some s => s.arriveAt | none => none })

def normalizeAll (qpOrigin qpDestination : Option String) (maxStops : Option Int)
    (allowed : Option (List String)) (defaultCurrency : String) :
    ℕ → List RawOffer → Except PyExn (List Offer)
  | _, [] => .ok []
  | idx, r :: rest =>
    match normalizeOne qpOrigin qpDestination maxStops allowed defaultCurrency idx r with
    | .error e => .error e
    | .ok o? =>
      match normalizeAll qpOrigin qpDestination maxStops allowed defaultCurrency (idx + 1) rest with
      | .error e => .error e
      | .ok tail => .ok (match o? with | some o => o :: tail | none => tail)

/-! ## Final-list meta (lines 909-952) -/

/-- Python `min(list)` as a left fold keeping the earlier value on ties. -/
def listMin (l : List ℚ) : Option ℚ :=
  match l with
  | [] => none
  | h :: t => some (t.foldl (fun acc b => if b < acc then b else acc) h)

def listMax (l : List ℚ) : Option ℚ :=
  match l with
  | [] => none
  | h :: t => some (t.foldl (fun acc b => if acc < b then b else acc) h)

/-- The stop histogram of lines 918-929 (`s <= 0` feeds the `"0"` bucket). -/
def tallyStops (offers : List Offer) : StopsCounts :=
  offers.foldl
    (fun c o =>
      if o.stops ≤ 0 then { c with zero := c.zero + 1 }
      else if o.stops = 1 then { c with one := c.one + 1 }
      else { c with twoPlus := c.twoPlus + 1 })
    ⟨0, 0, 0⟩

/-- The `(code, name or code)` set of lines 930-934, insertion-ordered. -/
def collectAirlinePairs (offers : List Offer) : List (String × String) :=
  offers.foldl
    (fun acc o =>
      o.airlines.foldl
        (fun acc a =>
          if a.code.data.isEmpty then acc
          else
            let pair := (a.code, pyOrS (some a.name) a.code)
            if pair ∈ acc then acc else acc ++ [pair])
        acc)
    []

/-! ## Cache keys and outbound queries -/

/-- The fingerprint payload of lines 650-662.  `_cache_key` SHA-1-hashes its
canonical JSON; the digest is abstracted to the payload itself (deterministic
and injective — no claim concerns digest collisions). -/
structure CachePayload where
  origin : Option String
  destination : Option String
  departDate : Option String
  returnDate : Option String
  adults : Option Int
  cabin : Option String
  currency : Option String
  sort : Option String
  limit : IntParam
  maxStops : IntParam
  allowedAirlines : Option (List String)
deriving DecidableEq, Repr

def mkCachePayload (p : Params) : CachePayload :=
  { origin := p.origin, destination := p.destination, departDate := some p.departDate
    returnDate := p.returnDate, adults := some p.adults, cabin := p.cabin
    currency := p.currency, sort := p.sort, limit := p.limit, maxStops := p.maxStops
    allowedAirlines := p.allowedAirlines }

/-- Python `f"{v}"` on an optional string (`None` prints as `"None"`). -/
def pyStr : Option String → String
  | none => "None"
  | some s => s

/-- `skyscraper._google_curve_cache_key` (lines 216-226). -/
def _google_curve_cache_key (departureId arrivalId departDate returnDate currency :
    Option String) : String :=
  "flights:skyscraper:google_curve:" ++ pyStr departureId ++ ":" ++ pyStr arrivalId ++ ":"
    ++ pyStr departDate ++ ":" ++ pyOrS returnDate "" ++ ":" ++ pyOrS currency ""

def curveKeyOf (p : Params) : String :=
  _google_curve_cache_key (_to_google_airport p.origin) (_to_google_airport p.destination)
    (some p.departDate) p.returnDate p.currency

/-- The `query_params` dict sent to the list endpoint (lines 688-731),
including the raw `origin` / `destination` echo kept for segment fallbacks. -/
structure ListQuery where
  origin : Option String
  destination : Option String
  departureId : Option String
  arrivalId : Option String
  departureDate : String
  adults : Int
  currency : String
  language : String
  location : String
  arrivalDate : Option String
  endpoint : String
deriving DecidableEq, Repr

def buildListQuery (defaultCurrency : String) (p : Params) : ListQuery :=
  { origin := p.origin
    destination := p.destination
    departureId := _to_google_airport p.origin
    arrivalId := _to_google_airport p.destination
    departureDate := p.departDate
    adults := p.adults
    currency := pyOrS p.currency defaultCurrency
    language := "en-US"
    location := "US"
    arrivalDate := if isTruthy p.returnDate then p.returnDate else none
    endpoint := if isTruthy p.returnDate then "/google/flights/search-roundtrip"
      else "/google/flights/search-one-way" }

/-- The `graph_query` dict sent to the price-graph endpoint (lines 993-1006). -/
structure GraphQuery where
  departureId : Option String
  arrivalId : Option String
  departureDate : String
  currency : Option String
  arrivalDate : Option String
  url : String
deriving DecidableEq, Repr

def buildGraphQuery (p : Params) : GraphQuery :=
  { departureId := _to_google_airport p.origin
    arrivalId := _to_google_airport p.destination
    departureDate := p.departDate
    currency := if isTruthy p.currency then p.currency else none
    arrivalDate := if isTruthy p.returnDate then p.returnDate else none
    url := if isTruthy p.returnDate then
        "https://flights-sky.p.rapidapi.com/google/price-graph/for-roundtrip"
      else "https://flights-sky.p.rapidapi.com/google/price-graph/for-one-way" }

/-! ## Price-history reconciliation (lines 953-1075) -/

structure PHOut where
  history : List PricePoint
  source : String
  filterAware : Bool
  cacheAge : Option Int
  cacheTtl : Option Int
  curveWrite : Option (String × List PricePoint)
deriving DecidableEq, Repr

/-- Steps 1-2 of the reconciler (lines 977-1032): Google price graph from
the curve cache or a fresh fetch, then the offer-derived-curve override.
These steps cannot raise past the `except ProviderError` handlers. -/
def priceHistoryPre (env : Env) (params : Params) (offersForCurve : List Offer) :
    PHOut :=
  let curveKey := curveKeyOf params
  let base : PHOut :=
    { history := [], source := "none", filterAware := false,
      cacheAge := none, cacheTtl := none, curveWrite := none }
  -- curve-cache miss: fetch the Google price graph; a ProviderError is
  -- caught (lines 1020-1022) and leaves the state untouched
  let fetched : PHOut :=
    match env.graphFetch with
    | .ok series =>
      if series.isEmpty then base
      else { base with history := series, source := "google_price_graph",
                       curveWrite := some (curveKey, series) }
    | .error _ => base
  let s1 : PHOut :=
    match env.curveCache with
    | some (.dict data cachedAt) =>
      if data.isEmpty then base   -- enters the dict branch, sets nothing, no fetch
      else { base with history := data, source := "google_price_graph",
                       cacheAge := ageOf env.now cachedAt,
                       cacheTtl := some GRAPH_CACHE_TTL }
    | some (.plain l) =>
      if l.isEmpty then fetched
      else { base with history := l, source := "google_price_graph",
                       cacheTtl := some GRAPH_CACHE_TTL }
    | none => fetched
  let offersCurve := _build_offer_curve offersForCurve
  if _should_override_curve offersCurve s1.history then
    { s1 with history := offersCurve, source := "offers", filterAware := true,
              cacheAge := none, cacheTtl := none }
  else s1

/-- Lines 1067-1069: an empty final series is tagged `"none"`. -/
def phFinalize (s : PHOut) : PHOut :=
  if s.history.isEmpty then { s with source := "none", filterAware := false } else s

/-- Step 3 (lines 1034-1069): the search-everywhere fallback.  The locally
raised ProviderError for missing entity ids and any upstream ProviderError
are caught (lines 1064-1065), but a `ValueError` raised by `_parse_price`
while normalizing a quote price (line 593) escapes the
`except ProviderError` and aborts the whole search. -/
def everywhereStep (env : Env) (params : Params) (s2 : PHOut) : Except PyExn PHOut :=
  if s2.history.isEmpty then
    if isTruthy (_to_everywhere_entity params.origin) &&
        isTruthy (_to_everywhere_entity params.destination) then
      match env.everywhereFetch with
      | .ok items =>
        match _normalize_price_history_from_everywhere items with
        | .error e => .error e
        | .ok h => .ok (phFinalize
            { s2 with history := h, source := "search_everywhere", filterAware := false })
      | .error _ => .ok (phFinalize s2)
    else .ok (phFinalize s2)
  else .ok (phFinalize s2)

def priceHistoryStage (env : Env) (params : Params) (offersForCurve : List Offer) :
    Except PyExn PHOut :=
  everywhereStep env params (priceHistoryPre env params offersForCurve)

/-! ## The orchestrator `search_flights` -/

structure SearchOutcome where
  result : Except SearchErr SearchResult
  respWrite : Option (CachePayload × SearchResult)
  curveWrite : Option (String × List PricePoint)
deriving DecidableEq

/-- The response-cache read of lines 667-685: skipped entirely under
`bypassCache`; on a hit the cached payload is returned with its meta's
cache-staleness fields refreshed. -/
def cacheHitPayload (env : Env) (params : Params) : Option SearchResult :=
  if params.bypassCache then none
  else
    match env.respCache with
    | none => none
    | some entry =>
      let payload := entry.payload
      some { payload with
        meta := { payload.meta with
          cached := true
          cacheAgeSeconds := ageOf env.now entry.cachedAt
          cacheTtlSeconds := some RESPONSE_CACHE_TTL
          priceHistoryPoints := payload.meta.priceHistory.length } }

/-- Lines 893-1098: dedupe, sort, limit, recompute meta, reconcile the price
history, sort it by date, and (unless bypassing) store the response. -/
def assemble (env : Env) (params : Params) (offers0 : List Offer) : SearchOutcome :=
  let offers1 := _dedupe_offers offers0
  let offers2 := _sort_offers offers1 (pyOrS params.sort "cheapest")
  let limit := max 1 (min (resolveLimit params.limit) 100)
  let offersForCurve := offers2
  let offersFinal := offers2.take limit.toNat
  let finalPrices := offersFinal.map fun o => o.price.total
  let queryEcho : QueryEcho :=
    { origin := params.origin, destination := params.destination
      departDate := some params.departDate, returnDate := params.returnDate
      adults := some params.adults, cabin := params.cabin
      currency := pyOrS params.currency env.defaultCurrency }
  match priceHistoryStage env params offersForCurve with
  | .error _ =>
    -- the uncaught ValueError propagates out of search_flights: no result,
    -- no cache writes (a successful graph fetch would have left a non-empty
    -- history, so the everywhere branch that raises is never reached after
    -- a curve-cache write)
    { result := .error .valueError, respWrite := none, curveWrite := none }
  | .ok ph =>
    let meta : Meta :=
      { minPrice := listMin finalPrices
        maxPrice := listMax finalPrices
        airlines := ((collectAirlinePairs offersFinal).insertionSort pairLeProp).map
          fun p => ⟨p.1, p.2⟩
        stopsCounts := tallyStops offersFinal
        priceHistory := ph.history.insertionSort fun a b => a.date ≤ b.date
        priceHistorySource := ph.source
        priceHistoryFilterAware := ph.filterAware
        priceHistoryPoints := ph.history.length
        cached := false
        cacheAgeSeconds := ph.cacheAge
        cacheTtlSeconds := ph.cacheTtl }
    let result : SearchResult := { query := queryEcho, offers := offersFinal, meta := meta }
    { result := .ok result
      respWrite := if params.bypassCache then none else some (mkCachePayload params, result)
      curveWrite := ph.curveWrite }

/-- `SkyScraperProvider.search_flights`. -/
def search_flights (env : Env) (params : Params) : SearchOutcome :=
  if !env.apiKey then
    { result := .error (.provider ⟨"Sky-Scraper API key is not configured.", 500⟩)
      respWrite := none, curveWrite := none }
  else
    match cacheHitPayload env params with
    | some payload => { result := .ok payload, respWrite := none, curveWrite := none }
    | none =>
      match env.listFetch with
      | .error e => { result := .error (.provider e), respWrite := none, curveWrite := none }
      | .ok raws =>
        let maxStops := resolveMaxStops params.maxStops
        let allowed := resolveAllowedAirlines params.allowedAirlines
        let dcur := pyOrS (some (pyOrS params.currency env.defaultCurrency))
          env.defaultCurrency
        match normalizeAll params.origin params.destination maxStops allowed dcur 0 raws with
        | .error _ => { result := .error .valueError, respWrite := none, curveWrite := none }
        | .ok offers0 => assemble env params offers0

/-! ## Concrete sample data (used by witnesses and counterexamples) -/

def sampleOffer (tag : String) (total : ℚ) (stops : ℕ) (dur : Int) : Offer :=
  { id := tag, price := { total := total, currency := "USD" }, stops := stops
    durationMinutes := dur, airlines := [], segments := [], departAt := none
    arriveAt := none }

def rsJFKCDG : RawSeg :=
  { fromCode := some "JFK", toCode := some "CDG", departAt := some "2025-06-01T08:00:00"
    arriveAt := some "2025-06-01T10:00:00", airlineCode := some "AF"
    airlineName := some "Air France", flightNumber := some "AF1", durationMinutes := some 120 }

def rsCDGLHR : RawSeg :=
  { fromCode := some "CDG", toCode := some "LHR", departAt := some "2025-06-01T12:00:00"
    arriveAt := some "2025-06-01T13:00:00", airlineCode := some "AF"
    airlineName := some "Air France", flightNumber := some "AF2", durationMinutes := some 60 }

def rawTwoSeg : RawOffer :=
  { priceVal := .num 450, segments := [rsJFKCDG, rsCDGLHR], legs := [], vendorId := some "v1" }

def rawCheap : RawOffer :=
  { priceVal := .num 300, segments := [rsJFKCDG], legs := [], vendorId := some "v2" }

def pBase : Params :=
  { origin := some "JFK", destination := some "LHR", departDate := "2025-06-01"
    returnDate := none, adults := 1, cabin := some "ECONOMY", currency := none
    sort := none, limit := .absent, maxStops := .absent, allowedAirlines := none
    bypassCache := true }

def envBase : Env :=
  { apiKey := true, defaultCurrency := "USD", now := 0, respCache := none
    curveCache := none, listFetch := .ok [rawTwoSeg, rawCheap]
    graphFetch := .error { message := "graph down", statusCode := 502 }
    everywhereFetch := .error { message := "everywhere down", statusCode := 502 } }

def dummyResult : SearchResult :=
  { query := { origin := none, destination := none, departDate := none, returnDate := none
               adults := none, cabin := none, currency := "" }
    offers := []
    meta := { minPrice := none, maxPrice := none, airlines := [], stopsCounts := ⟨0, 0, 0⟩
              priceHistory := [], priceHistorySource := "none"
              priceHistoryFilterAware := false, priceHistoryPoints := 0, cached := false
              cacheAgeSeconds := none, cacheTtlSeconds := none } }

/-- The result a concrete run returns (its error case never hits in use). -/
def resOf (env : Env) (params : Params) : SearchResult :=
  ((search_flights env params).result.toOption).getD dummyResult

def pMax1 : Params := { pBase with maxStops := .val 1 }

def oMax1 : Offer := ((resOf envBase pMax1).offers).headD (sampleOffer "x" 0 0 0)

/-- An environment whose response cache holds an entry, to exercise bypass. -/
def envWarm : Env := { envBase with respCache := some { payload := dummyResult, cachedAt := some 10 } }

def pNYC : Params := { pBase with origin := some "NYC" }

def pNYCA : Params := { pBase with origin := some "NYCA" }

/-- A quote whose price is a well-formed numeric raw price. -/
def qGood : QuoteItem :=
  { localDepartureDate := some "2025-07-01", rawPrice := some 120, price := .pyNone }

/-- A quote whose price string cleans to the two-dot residue "1.234.567",
on which float raises ValueError (line 593). -/
def qBad : QuoteItem :=
  { localDepartureDate := some "2025-06-02", rawPrice := none, price := .str "1.234.567" }

def envEverywhereOk : Env := { envBase with everywhereFetch := .ok [qGood] }

def envEverywhereBad : Env := { envBase with everywhereFetch := .ok [qBad] }

/-! ## Claim theorems -/

/-- C2, counterexample: the claim says every string that is not numeric after
cleaning yields exactly 0.0 and that the function never raises; on "a.b" the
cleaning keeps only ".", and float(".") raises ValueError. -/
theorem parse_price_raises_on_residual_dot :
    _parse_price (.str "a.b") = .error .valueError ∧
    ∀ q : ℚ, _parse_price (.str "a.b") ≠ .ok q := by
  have h : _parse_price (.str "a.b") = .error .valueError := by decide
  exact ⟨h, fun q hq => by rw [h] at hq; exact Except.noConfusion hq⟩

/-- C2, amended: _parse_price is a pure function of its input; a number maps
to its value, None and non-string non-numbers to 0.0, and a string is first
cleaned to its digit/dot characters: an empty residue yields 0.0, a residue
with at most one dot and at least one digit yields its decimal value, and any
other (non-empty, malformed) residue raises ValueError instead of yielding
0.0. -/
theorem parse_price_total_spec :
    (∀ q : ℚ, _parse_price (.num q) = .ok q) ∧
    _parse_price .pyNone = .ok 0 ∧
    _parse_price .other = .ok 0 ∧
    (∀ s : String, cleanPriceChars s.data = [] → _parse_price (.str s) = .ok 0) ∧
    (∀ s : String, cleanPriceChars s.data ≠ [] →
      ((cleanPriceChars s.data).count '.' ≤ 1 ∧ (cleanPriceChars s.data).any Char.isDigit = true) →
      _parse_price (.str s) = .ok (decimalVal (cleanPriceChars s.data))) ∧
    (∀ s : String,
      _parse_price (.str s) = .error .valueError ↔
        (cleanPriceChars s.data ≠ [] ∧
          ¬((cleanPriceChars s.data).count '.' ≤ 1 ∧
            (cleanPriceChars s.data).any Char.isDigit = true))) := by
  refine ⟨fun q => rfl, rfl, rfl, ?_, ?_, ?_⟩
  · intro s h
    simp [_parse_price, h]
  · intro s hne ⟨h1, h2⟩
    simp [_parse_price, pyFloatOfCleaned, List.isEmpty_iff, hne, h1, h2]
  · intro s
    by_cases hne : cleanPriceChars s.data = []
    · simp [_parse_price, hne]
    · by_cases h1 : (cleanPriceChars s.data).count '.' ≤ 1 <;>
        by_cases h2 : (cleanPriceChars s.data).any Char.isDigit = true <;>
        simp [_parse_price, pyFloatOfCleaned, List.isEmpty_iff, hne, h1, h2]

/-- C2, witness for the amended theorem at concrete inputs. -/
theorem parse_price_total_spec_witness :
    _parse_price (.str "") = .ok 0 ∧
    _parse_price (.str "USD 12.50") = .ok (decimalVal (cleanPriceChars "USD 12.50".data)) := by
  refine ⟨parse_price_total_spec.2.2.2.1 "" (by decide),
          parse_price_total_spec.2.2.2.2.1 "USD 12.50" (by decide) (by decide)⟩

/-- C4: the override rule returns true iff the offer-derived curve has at
least 2 points and (the existing curve is empty, or the offer-derived curve
has at least 5 points, or it is both strictly longer and spans strictly more
days); concretely a 2-point curve spanning 3 days beats a 1-point curve, and
a curve of 6 or more points always wins. -/
theorem should_override_curve_spec :
    (∀ O E : List PricePoint,
      _should_override_curve O E = true ↔
        (2 ≤ O.length ∧ (E = [] ∨ 5 ≤ O.length ∨
          (E.length < O.length ∧
            _series_date_span_days E < _series_date_span_days O)))) ∧
    (_series_date_span_days [⟨"2025-06-01", 100⟩, ⟨"2025-06-04", 90⟩] = 3 ∧
     _should_override_curve
       [⟨"2025-06-01", 100⟩, ⟨"2025-06-04", 90⟩] [⟨"2025-06-02", 80⟩] = true) ∧
    (∀ O E : List PricePoint, 6 ≤ O.length → _should_override_curve O E = true) := by
  refine ⟨?_, by decide, ?_⟩
  · intro O E
    unfold _should_override_curve
    split_ifs with h1 h2 h3 h4
    · simp only [false_iff]
      rintro ⟨h, _⟩
      omega
    · rw [List.isEmpty_iff] at h2
      simp only [true_iff]
      exact ⟨by omega, Or.inl h2⟩
    · simp only [true_iff]
      exact ⟨by omega, Or.inr (Or.inl h3)⟩
    · rw [List.isEmpty_iff] at h2
      simp only [decide_eq_true_eq]
      constructor
      · intro hs
        exact ⟨by omega, Or.inr (Or.inr ⟨h4, hs⟩)⟩
      · rintro ⟨-, h2' | h3' | ⟨-, hs⟩⟩
        · exact absurd h2' h2
        · exact absurd h3' h3
        · exact hs
    · rw [List.isEmpty_iff] at h2
      simp only [false_iff]
      rintro ⟨-, h2' | h3' | ⟨h4', -⟩⟩
      · exact absurd h2' h2
      · exact absurd h3' h3
      · exact absurd h4' h4
  · intro O E h
    unfold _should_override_curve
    split_ifs with h1 h2 h3 h4
    · omega
    · rfl
    · rfl
    · omega
    · omega

/-- C4, witness: the always-wins conjunct applied to a 6-point curve against
an existing 2-point curve spanning ten years. -/
theorem should_override_curve_spec_witness :
    _should_override_curve
      [⟨"2025-06-01", 1⟩, ⟨"2025-06-02", 1⟩, ⟨"2025-06-03", 1⟩,
       ⟨"2025-06-04", 1⟩, ⟨"2025-06-05", 1⟩, ⟨"2025-06-06", 1⟩]
      [⟨"2020-01-01", 1⟩, ⟨"2030-01-01", 1⟩] = true :=
  should_override_curve_spec.2.2 _ _ (by decide)

/-! ### Dedupe lemmas -/

theorem dedupeGo_sublist : ∀ (seen : List OfferKeyT) (l : List Offer),
    List.Sublist (dedupeGo seen l) l
  | _, [] => List.Sublist.refl _
  | seen, o :: rest => by
    unfold dedupeGo
    split
    · exact List.Sublist.cons o (dedupeGo_sublist seen rest)
    · exact List.Sublist.cons₂ o (dedupeGo_sublist _ rest)

theorem dedupeGo_countP_mem (k : OfferKeyT) :
    ∀ (seen : List OfferKeyT) (l : List Offer), k ∈ seen →
      (dedupeGo seen l).countP (fun x => decide (offerKey x = k)) = 0
  | _, [], _ => rfl
  | seen, o :: rest, hk => by
    unfold dedupeGo
    split
    · exact dedupeGo_countP_mem k seen rest hk
    · rename_i hnotin
      have hne : offerKey o ≠ k := fun h => hnotin (h ▸ hk)
      rw [List.countP_cons_of_neg _ _ (by simpa using hne)]
      exact dedupeGo_countP_mem k _ rest (List.mem_cons_of_mem _ hk)

theorem dedupeGo_countP_not_mem (k : OfferKeyT) :
    ∀ (seen : List OfferKeyT) (l : List Offer), k ∉ seen →
      (dedupeGo seen l).countP (fun x => decide (offerKey x = k)) =
        (if l.any (fun x => decide (offerKey x = k)) then 1 else 0)
  | _, [], _ => rfl
  | seen, o :: rest, hk => by
    unfold dedupeGo
    split
    · rename_i hin
      have hne : offerKey o ≠ k := fun h => hk (h ▸ hin)
      rw [dedupeGo_countP_not_mem k seen rest hk]
      simp [List.any_cons, hne]
    · rename_i hnotin
      by_cases ho : offerKey o = k
      · rw [List.countP_cons_of_pos _ _ (by simpa using ho),
          dedupeGo_countP_mem k _ rest (ho ▸ List.mem_cons_self _ _)]
        simp [List.any_cons, ho]
      · rw [List.countP_cons_of_neg _ _ (by simpa using ho),
          dedupeGo_countP_not_mem k _ rest (by
            intro h
            rcases List.mem_cons.mp h with h' | h'
            · exact ho h'.symm
            · exact hk h')]
        simp [List.any_cons, ho]

theorem dedupeGo_find? (k : OfferKeyT) :
    ∀ (seen : List OfferKeyT) (l : List Offer), k ∉ seen →
      (dedupeGo seen l).find? (fun x => decide (offerKey x = k)) =
        l.find? (fun x => decide (offerKey x = k))
  | _, [], _ => rfl
  | seen, o :: rest, hk => by
    unfold dedupeGo
    split
    · rename_i hin
      have hne : offerKey o ≠ k := fun h => hk (h ▸ hin)
      rw [dedupeGo_find? k seen rest hk, List.find?_cons_of_neg _ (by simpa using hne)]
    · rename_i hnotin
      by_cases ho : offerKey o = k
      · rw [List.find?_cons_of_pos _ (by simpa using ho),
          List.find?_cons_of_pos _ (by simpa using ho)]
      · rw [List.find?_cons_of_neg _ (by simpa using ho),
          List.find?_cons_of_neg _ (by simpa using ho)]
        exact dedupeGo_find? k _ rest (by
          intro h
          rcases List.mem_cons.mp h with h' | h'
          · exact ho h'.symm
          · exact hk h')

theorem dedupeGo_of_pairwise :
    ∀ (seen : List OfferKeyT) (l : List Offer),
      (∀ o ∈ l, offerKey o ∉ seen) →
      l.Pairwise (fun a b => offerKey a ≠ offerKey b) →
      dedupeGo seen l = l
  | _, [], _, _ => rfl
  | seen, o :: rest, hs, hp => by
    unfold dedupeGo
    rw [if_neg (hs o (List.mem_cons_self _ _))]
    have hhead := (List.pairwise_cons.mp hp).1
    have hrest := (List.pairwise_cons.mp hp).2
    rw [dedupeGo_of_pairwise _ rest
      (fun x hx => by
        intro hmem
        rcases List.mem_cons.mp hmem with h' | h'
        · exact hhead x hx h'.symm
        · exact hs x (List.mem_cons_of_mem _ hx) h')
      hrest]

/-- C7: dedupe returns a subsequence of its input (so relative order is
preserved), keeps exactly one representative of every duplicate class —
namely the first occurrence — and keeps everything when all keys (price
total, stops, depart/arrive, per-segment tuples) are pairwise distinct. -/
theorem dedupe_offers_spec :
    (∀ offers : List Offer, List.Sublist (_dedupe_offers offers) offers) ∧
    (∀ offers : List Offer, ∀ o ∈ offers,
      (_dedupe_offers offers).countP (fun x => decide (offerKey x = offerKey o)) = 1) ∧
    (∀ offers : List Offer, ∀ o ∈ offers,
      (_dedupe_offers offers).find? (fun x => decide (offerKey x = offerKey o)) =
        offers.find? (fun x => decide (offerKey x = offerKey o))) ∧
    (∀ offers : List Offer,
      offers.Pairwise (fun a b => offerKey a ≠ offerKey b) →
      _dedupe_offers offers = offers) := by
  refine ⟨fun offers => dedupeGo_sublist [] offers, ?_, ?_, ?_⟩
  · intro offers o ho
    rw [_dedupe_offers, dedupeGo_countP_not_mem _ [] offers (by simp)]
    have h : offers.any (fun x => decide (offerKey x = offerKey o)) = true :=
      List.any_eq_true.mpr ⟨o, ho, by simp⟩
    rw [h]
    rfl
  · intro offers o _
    exact dedupeGo_find? _ [] offers (by simp)
  · intro offers h
    exact dedupeGo_of_pairwise [] offers (by simp) h

/-- C7, witness: two offers agreeing on the whole dedupe key (but differing
in duration, which is not part of the key) collapse to the first one, and an
offer with a different price survives alongside. -/
theorem dedupe_offers_spec_witness :
    (_dedupe_offers [sampleOffer "a" 100 0 60, sampleOffer "b" 100 0 75,
        sampleOffer "c" 200 0 60]).countP
      (fun x => decide (offerKey x = offerKey (sampleOffer "a" 100 0 60))) = 1 ∧
    (_dedupe_offers [sampleOffer "a" 100 0 60, sampleOffer "b" 100 0 75,
        sampleOffer "c" 200 0 60]).find?
      (fun x => decide (offerKey x = offerKey (sampleOffer "a" 100 0 60))) =
      some (sampleOffer "a" 100 0 60) ∧
    _dedupe_offers [sampleOffer "a" 100 0 60, sampleOffer "c" 200 0 60] =
      [sampleOffer "a" 100 0 60, sampleOffer "c" 200 0 60] := by
  refine ⟨dedupe_offers_spec.2.1 _ _ (by decide), ?_, ?_⟩
  · rw [dedupe_offers_spec.2.2.1 _ _ (by decide : sampleOffer "a" 100 0 60 ∈
      [sampleOffer "a" 100 0 60, sampleOffer "b" 100 0 75, sampleOffer "c" 200 0 60])]
    decide
  · exact dedupe_offers_spec.2.2.2 _ (by decide)

/-! ### Sort lemmas -/

/-- C3, counterexample: with no sort key the pipeline passes
(params.get("sort") or "cheapest") to the sorter, so the upstream order
[450, 300] comes back reordered to [300, 450] rather than unchanged. -/
theorem sort_absent_defaults_to_cheapest_cex :
    ((search_flights envBase pBase).result.toOption.map fun r =>
        r.offers.map fun o => o.price.total) = some [300, 450] ∧
    ((search_flights envBase pBase).result.toOption.map fun r =>
        r.offers.map fun o => o.price.total) ≠ some [450, 300] ∧
    pBase.sort = none := by
  refine ⟨by decide, ?_, rfl⟩
  intro h
  have h' : ((search_flights envBase pBase).result.toOption.map fun r =>
      r.offers.map fun o => o.price.total) = some [300, 450] := by decide
  rw [h'] at h
  exact absurd (Option.some.inj h) (by decide)

/-- C3, amended: the three recognized keys each produce a stable ascending
sort (a permutation, pairwise-ordered, and any ordered subsequence of the
input — in particular any run of ties — survives as a subsequence); an
unrecognized key returns the list unchanged; but an absent or empty sort
parameter is mapped to "cheapest" by the pipeline rather than preserving
the upstream order. -/
theorem sort_offers_spec :
    (∀ offers : List Offer,
      List.Perm (_sort_offers offers "cheapest") offers ∧
      (_sort_offers offers "cheapest").Pairwise
        (fun a b => a.price.total ≤ b.price.total) ∧
      (∀ c : List Offer, c.Pairwise (fun a b => a.price.total ≤ b.price.total) →
        List.Sublist c offers → List.Sublist c (_sort_offers offers "cheapest"))) ∧
    (∀ offers : List Offer,
      List.Perm (_sort_offers offers "shortest") offers ∧
      (_sort_offers offers "shortest").Pairwise
        (fun a b => a.durationMinutes ≤ b.durationMinutes) ∧
      (∀ c : List Offer, c.Pairwise (fun a b => a.durationMinutes ≤ b.durationMinutes) →
        List.Sublist c offers → List.Sublist c (_sort_offers offers "shortest"))) ∧
    (∀ offers : List Offer,
      List.Perm (_sort_offers offers "least_stops") offers ∧
      (_sort_offers offers "least_stops").Pairwise (fun a b => a.stops ≤ b.stops) ∧
      (∀ c : List Offer, c.Pairwise (fun a b => a.stops ≤ b.stops) →
        List.Sublist c offers → List.Sublist c (_sort_offers offers "least_stops"))) ∧
    (∀ (offers : List Offer) (s : String),
      s ≠ "cheapest" → s ≠ "shortest" → s ≠ "least_stops" →
      _sort_offers offers s = offers) ∧
    pyOrS none "cheapest" = "cheapest" ∧
    pyOrS (some "") "cheapest" = "cheapest" ∧
    (∀ s : String, s.data ≠ [] → pyOrS (some s) "cheapest" = s) := by
  refine ⟨?_, ?_, ?_, ?_, rfl, by decide, ?_⟩
  · intro offers
    unfold _sort_offers
    rw [if_pos rfl]
    exact ⟨List.perm_insertionSort _ _, List.sorted_insertionSort _ _,
      fun c hp hs => List.sublist_insertionSort hp hs⟩
  · intro offers
    unfold _sort_offers
    rw [if_neg (by decide), if_pos rfl]
    exact ⟨List.perm_insertionSort _ _, List.sorted_insertionSort _ _,
      fun c hp hs => List.sublist_insertionSort hp hs⟩
  · intro offers
    unfold _sort_offers
    rw [if_neg (by decide), if_neg (by decide), if_pos rfl]
    exact ⟨List.perm_insertionSort _ _, List.sorted_insertionSort _ _,
      fun c hp hs => List.sublist_insertionSort hp hs⟩
  · intro offers s h1 h2 h3
    unfold _sort_offers
    rw [if_neg h1, if_neg h2, if_neg h3]
  · intro s h
    simp [pyOrS, h]

/-- C3, witness: an unrecognized key leaves a concrete list unchanged; a
sorted subsequence survives a cheapest sort; a present non-empty sort key
passes through the or-default untouched. -/
theorem sort_offers_spec_witness :
    _sort_offers [sampleOffer "a" 5 0 9, sampleOffer "b" 3 0 7] "weird" =
      [sampleOffer "a" 5 0 9, sampleOffer "b" 3 0 7] ∧
    List.Sublist [sampleOffer "b" 3 0 7]
      (_sort_offers [sampleOffer "a" 5 0 9, sampleOffer "b" 3 0 7] "cheapest") ∧
    pyOrS (some "shortest") "cheapest" = "shortest" := by
  refine ⟨sort_offers_spec.2.2.2.1 _ "weird" (by decide) (by decide) (by decide),
    (sort_offers_spec.1 _).2.2 [sampleOffer "b" 3 0 7] ?_ ?_,
    sort_offers_spec.2.2.2.2.2.2 "shortest" (by decide)⟩
  · exact List.pairwise_singleton _ _
  · exact List.Sublist.cons _ (List.Sublist.refl _)

/-! ### Normalization lemmas -/

theorem normalizeOne_post {ms : Option Int} {al : Option (List String)} {dc : String}
    {i : ℕ} {r : RawOffer} {q : ℚ} {o : Offer}
    (sa : List Segment × List (String × String))
    (h : (if sa.1.isEmpty && (ms.isSome || al.isSome) then
            (Except.ok none : Except PyExn (Option Offer))
          else if !matchesMaxStops ms (sa.1.length - 1) then .ok none
          else if !matchesAirlines al sa.2 then .ok none
          else .ok (some
            { id := _short_offer_id (pyOrS r.vendorId ("idx_" ++ toString i))
              price := { total := q, currency := dc }
              stops := sa.1.length - 1
              durationMinutes := _compute_duration_minutes sa.1
              airlines := (sa.2.insertionSort pairLeProp).map fun p => ⟨p.1, p.2⟩
              segments := sa.1
              departAt := match sa.1 with | [] => none | s :: _ => s.departAt
              arriveAt := match sa.1.getLast? with
                | some s => s.arriveAt
                | none => none })) = .ok (some o)) :
    o.stops = o.segments.length - 1 ∧
    ((ms.isSome ∨ al.isSome) → o.segments ≠ []) := by
  obtain ⟨segs, sair⟩ := sa
  dsimp only at h
  split at h
  · simp at h
  · rename_i hskip
    split at h
    · simp at h
    · split at h
      · simp at h
      · have ho := (Option.some.inj (Except.ok.inj h)).symm
        subst ho
        refine ⟨rfl, ?_⟩
        intro hfilters hsegs
        apply hskip
        simp only [Bool.and_eq_true, List.isEmpty_iff]
        refine ⟨hsegs, ?_⟩
        rcases hfilters with h' | h'
        · simp [h']
        · simp [h']

theorem normalizeOne_ok_props {qpO qpD : Option String} {ms : Option Int}
    {al : Option (List String)} {dc : String} {i : ℕ} {r : RawOffer} {o : Offer}
    (h : normalizeOne qpO qpD ms al dc i r = .ok (some o)) :
    o.stops = o.segments.length - 1 ∧
    ((ms.isSome ∨ al.isSome) → o.segments ≠ []) := by
  unfold normalizeOne at h
  cases hp : _parse_price r.priceVal with
  | error e => rw [hp] at h; exact Except.noConfusion h
  | ok q =>
    rw [hp] at h
    dsimp only at h
    exact normalizeOne_post _ h

theorem normalizeAll_mem {qpO qpD : Option String} {ms : Option Int}
    {al : Option (List String)} {dc : String} :
    ∀ {idx : ℕ} {raws : List RawOffer} {offers : List Offer},
      normalizeAll qpO qpD ms al dc idx raws = .ok offers →
      ∀ o ∈ offers, ∃ i r, normalizeOne qpO qpD ms al dc i r = .ok (some o) := by
  intro idx raws
  induction raws generalizing idx with
  | nil =>
    intro offers h o ho
    rw [normalizeAll] at h
    cases Except.ok.inj h
    exact absurd ho (List.not_mem_nil o)
  | cons r rest ih =>
    intro offers h o ho
    rw [normalizeAll] at h
    split at h
    · exact Except.noConfusion h
    · rename_i o? h1
      split at h
      · exact Except.noConfusion h
      · rename_i tail h2
        cases Except.ok.inj h
        cases o? with
        | none => exact ih h2 o ho
        | some o' =>
          rcases List.mem_cons.mp ho with h' | h'
          · exact ⟨idx, r, h' ▸ h1⟩
          · exact ih h2 o h'

theorem mem_sort_offers {offers : List Offer} {s : String} {o : Offer}
    (h : o ∈ _sort_offers offers s) : o ∈ offers := by
  unfold _sort_offers at h
  split_ifs at h
  · exact (List.perm_insertionSort _ _).mem_iff.mp h
  · exact (List.perm_insertionSort _ _).mem_iff.mp h
  · exact (List.perm_insertionSort _ _).mem_iff.mp h
  · exact h

/-- C8: in any search result assembled from upstream data (cache reads
bypassed), every offer's stop count is max(0, segment count − 1), and when a
max-stops or allowed-airlines filter was active no offer has zero segments. -/
theorem stops_derivation (env : Env) (params : Params) (res : SearchResult)
    (hb : params.bypassCache = true)
    (h : (search_flights env params).result = .ok res) :
    ∀ o ∈ res.offers,
      (o.stops : Int) = max ((o.segments.length : Int) - 1) 0 ∧
      (((resolveMaxStops params.maxStops).isSome ∨
        (resolveAllowedAirlines params.allowedAirlines).isSome) →
        o.segments ≠ []) := by
  unfold search_flights at h
  have hch : cacheHitPayload env params = none := by
    unfold cacheHitPayload
    rw [hb]
    simp
  cases ha : env.apiKey with
  | false => rw [ha] at h; exact absurd h (by simp)
  | true =>
    rw [ha] at h
    simp only [Bool.not_true, Bool.false_eq_true, if_false, hch] at h
    cases hl : env.listFetch with
    | error e => rw [hl] at h; exact absurd h (by simp)
    | ok raws =>
      rw [hl] at h
      dsimp only at h
      split at h
      · exact absurd h (by simp)
      · rename_i offers0 hn
        unfold assemble at h
        dsimp only at h
        split at h
        · exact absurd h (by simp)
        · have hres := (Except.ok.inj h).symm
          subst hres
          intro o ho
          have ho2 : o ∈ _sort_offers (_dedupe_offers offers0) (pyOrS params.sort "cheapest") :=
            List.mem_of_mem_take ho
          have ho1 := mem_sort_offers ho2
          have ho0 : o ∈ offers0 := (dedupeGo_sublist [] offers0).subset ho1
          obtain ⟨i, r, hone⟩ := normalizeAll_mem hn o ho0
          obtain ⟨hstops, hfilters⟩ := normalizeOne_ok_props hone
          refine ⟨?_, hfilters⟩
          omega

/-- C8, witness: with maxStops = 1 active, the head offer of the concrete
run satisfies the stop formula and has a non-empty segment list. -/
theorem stops_derivation_witness :
    (oMax1.stops : Int) = max ((oMax1.segments.length : Int) - 1) 0 ∧
    oMax1.segments ≠ [] := by
  have h := stops_derivation envBase pMax1 (resOf envBase pMax1) rfl (by decide)
    oMax1 (by decide)
  exact ⟨h.1, h.2 (Or.inl (by decide))⟩

/-! ### Orchestrator path lemmas -/

/-- Under a cache bypass the orchestrator always takes the miss path. -/
theorem search_bypass_shape (env : Env) (params : Params)
    (hb : params.bypassCache = true) :
    search_flights env params =
      (if !env.apiKey then
        { result := .error (.provider ⟨"Sky-Scraper API key is not configured.", 500⟩)
          respWrite := none, curveWrite := none }
      else
        match env.listFetch with
        | .error e => { result := .error (.provider e), respWrite := none, curveWrite := none }
        | .ok raws =>
          match normalizeAll params.origin params.destination
              (resolveMaxStops params.maxStops)
              (resolveAllowedAirlines params.allowedAirlines)
              (pyOrS (some (pyOrS params.currency env.defaultCurrency)) env.defaultCurrency)
              0 raws with
          | .error _ => { result := .error .valueError, respWrite := none, curveWrite := none }
          | .ok offers0 => assemble env params offers0) := by
  unfold search_flights
  have hch : cacheHitPayload env params = none := by
    unfold cacheHitPayload
    rw [hb]
    simp
  rw [hch]

/-- The miss-path shape for a limit-modified query, with the unmodified
fields written back in terms of the original `params` (all other projections
agree definitionally). -/
theorem search_limit_shape (env : Env) (params : Params) (l : IntParam)
    (hb : params.bypassCache = true) :
    search_flights env { params with limit := l } =
      (if !env.apiKey then
        { result := .error (.provider ⟨"Sky-Scraper API key is not configured.", 500⟩)
          respWrite := none, curveWrite := none }
      else
        match env.listFetch with
        | .error e => { result := .error (.provider e), respWrite := none, curveWrite := none }
        | .ok raws =>
          match normalizeAll params.origin params.destination
              (resolveMaxStops params.maxStops)
              (resolveAllowedAirlines params.allowedAirlines)
              (pyOrS (some (pyOrS params.currency env.defaultCurrency)) env.defaultCurrency)
              0 raws with
          | .error _ => { result := .error .valueError, respWrite := none, curveWrite := none }
          | .ok offers0 => assemble env { params with limit := l } offers0) :=
  search_bypass_shape env { params with limit := l } hb

/-- The reconciler reads no limit field, so a limit-modified query yields
the same stage outcome (all projections it uses agree definitionally). -/
theorem priceHistoryStage_limit_free (env : Env) (params : Params) (l : IntParam)
    (offers : List Offer) :
    priceHistoryStage env { params with limit := l } offers =
      priceHistoryStage env params offers := rfl

/-- The price history of an assembled result does not depend on the limit
parameter: the curve is built from the pre-limit offer list. -/
theorem assemble_history_limit_free (env : Env) (params : Params) (l : IntParam)
    (offers0 : List Offer) :
    ((assemble env { params with limit := l } offers0).result.toOption.map
      fun r => r.meta.priceHistory) =
    ((assemble env params offers0).result.toOption.map
      fun r => r.meta.priceHistory) := by
  unfold assemble
  dsimp only
  rw [priceHistoryStage_limit_free env params l
    (_sort_offers (_dedupe_offers offers0) (pyOrS params.sort "cheapest"))]
  cases priceHistoryStage env params
      (_sort_offers (_dedupe_offers offers0) (pyOrS params.sort "cheapest")) with
  | error e => rfl
  | ok ph => rfl

/-- C5: the limit defaults to 50 when absent or unparseable, its clamped
value always lies in [1, 100], a bypassed search returns at most that many
offers, and the returned price history is unchanged by the limit because the
curve is built from the pre-limit offer set. -/
theorem limit_clamp_spec :
    resolveLimit .absent = 50 ∧
    resolveLimit .bad = 50 ∧
    (∀ lp : IntParam, 1 ≤ max 1 (min (resolveLimit lp) 100) ∧
      max 1 (min (resolveLimit lp) 100) ≤ 100) ∧
    (∀ (env : Env) (params : Params) (res : SearchResult),
      params.bypassCache = true →
      (search_flights env params).result = .ok res →
      res.offers.length ≤ (max 1 (min (resolveLimit params.limit) 100)).toNat) ∧
    (∀ (env : Env) (params : Params) (l1 l2 : IntParam),
      params.bypassCache = true →
      ((search_flights env { params with limit := l1 }).result.toOption.map
        fun r => r.meta.priceHistory) =
      ((search_flights env { params with limit := l2 }).result.toOption.map
        fun r => r.meta.priceHistory)) := by
  refine ⟨rfl, rfl, ?_, ?_, ?_⟩
  · intro lp
    constructor
    · exact le_max_left _ _
    · have h : min (resolveLimit lp) 100 ≤ 100 := min_le_right _ _
      omega
  · intro env params res hb h
    rw [search_bypass_shape env params hb] at h
    cases ha : env.apiKey with
    | false => rw [ha] at h; exact absurd h (by simp)
    | true =>
      rw [ha] at h
      simp only [Bool.not_true, Bool.false_eq_true, if_false] at h
      cases hl : env.listFetch with
      | error e => rw [hl] at h; exact absurd h (by simp)
      | ok raws =>
        rw [hl] at h
        dsimp only at h
        split at h
        · exact absurd h (by simp)
        · unfold assemble at h
          dsimp only at h
          split at h
          · exact absurd h (by simp)
          · have hres := (Except.ok.inj h).symm
            subst hres
            exact List.length_take_le _ _
  · intro env params l1 l2 hb
    rw [search_limit_shape env params l1 hb, search_limit_shape env params l2 hb]
    cases ha : env.apiKey with
    | false => rfl
    | true =>
      simp only [Bool.not_true, Bool.false_eq_true, if_false]
      cases hl : env.listFetch with
      | error e => rfl
      | ok raws =>
        dsimp only
        cases hn : normalizeAll params.origin params.destination
            (resolveMaxStops params.maxStops)
            (resolveAllowedAirlines params.allowedAirlines)
            (pyOrS (some (pyOrS params.currency env.defaultCurrency)) env.defaultCurrency)
            0 raws with
        | error e => rfl
        | ok offers0 =>
          exact (assemble_history_limit_free env params l1 offers0).trans
            (assemble_history_limit_free env params l2 offers0).symm

/-- C5, witness: concrete clamp values and a concrete run with two offers
whose history is identical under limits 1 and absent. -/
theorem limit_clamp_spec_witness :
    1 ≤ max 1 (min (resolveLimit (.val 250)) 100) ∧
    max 1 (min (resolveLimit (.val 250)) 100) ≤ 100 ∧
    (resOf envBase pBase).offers.length ≤
      (max 1 (min (resolveLimit pBase.limit) 100)).toNat ∧
    ((search_flights envBase { pBase with limit := .val 1 }).result.toOption.map
      fun r => r.meta.priceHistory) =
    ((search_flights envBase { pBase with limit := .absent }).result.toOption.map
      fun r => r.meta.priceHistory) := by
  refine ⟨(limit_clamp_spec.2.2.1 (.val 250)).1, (limit_clamp_spec.2.2.1 (.val 250)).2,
    limit_clamp_spec.2.2.2.1 envBase pBase (resOf envBase pBase) rfl (by decide),
    limit_clamp_spec.2.2.2.2 envBase pBase (.val 1) .absent rfl⟩

/-! ### Meta lemmas -/

theorem foldl_min_mem : ∀ (t : List ℚ) (h : ℚ),
    t.foldl (fun acc b => if b < acc then b else acc) h ∈ h :: t
  | [], _ => List.mem_singleton.mpr rfl
  | b :: t, h => by
    simp only [List.foldl_cons]
    rcases List.mem_cons.mp (foldl_min_mem t (if b < h then b else h)) with h' | h'
    · by_cases hb : b < h
      · rw [if_pos hb] at h' ⊢
        rw [h']
        exact List.mem_cons_of_mem _ (List.mem_cons_self _ _)
      · rw [if_neg hb] at h' ⊢
        rw [h']
        exact List.mem_cons_self _ _
    · exact List.mem_cons_of_mem _ (List.mem_cons_of_mem _ h')

theorem foldl_min_le : ∀ (t : List ℚ) (h : ℚ) (x : ℚ), x ∈ h :: t →
    t.foldl (fun acc b => if b < acc then b else acc) h ≤ x
  | [], h, x, hx => by
    rcases List.mem_singleton.mp hx with rfl
    exact le_refl _
  | b :: t, h, x, hx => by
    simp only [List.foldl_cons]
    have hstep : ∀ y ∈ (if b < h then b else h) :: t,
        t.foldl (fun acc b => if b < acc then b else acc) (if b < h then b else h) ≤ y :=
      fun y hy => foldl_min_le t _ y hy
    have hhead := hstep _ (List.mem_cons_self _ _)
    rcases List.mem_cons.mp hx with rfl | hx'
    · refine le_trans hhead ?_
      by_cases hb : b < x
      · rw [if_pos hb]; exact le_of_lt hb
      · rw [if_neg hb]
    · rcases List.mem_cons.mp hx' with rfl | hx''
      · refine le_trans hhead ?_
        by_cases hb : x < h
        · rw [if_pos hb]
        · rw [if_neg hb]; exact le_of_not_lt hb
      · exact hstep x (List.mem_cons_of_mem _ hx'')

theorem foldl_max_mem : ∀ (t : List ℚ) (h : ℚ),
    t.foldl (fun acc b => if acc < b then b else acc) h ∈ h :: t
  | [], _ => List.mem_singleton.mpr rfl
  | b :: t, h => by
    simp only [List.foldl_cons]
    rcases List.mem_cons.mp (foldl_max_mem t (if h < b then b else h)) with h' | h'
    · by_cases hb : h < b
      · rw [if_pos hb] at h' ⊢
        rw [h']
        exact List.mem_cons_of_mem _ (List.mem_cons_self _ _)
      · rw [if_neg hb] at h' ⊢
        rw [h']
        exact List.mem_cons_self _ _
    · exact List.mem_cons_of_mem _ (List.mem_cons_of_mem _ h')

theorem foldl_max_ge : ∀ (t : List ℚ) (h : ℚ) (x : ℚ), x ∈ h :: t →
    x ≤ t.foldl (fun acc b => if acc < b then b else acc) h
  | [], h, x, hx => by
    rcases List.mem_singleton.mp hx with rfl
    exact le_refl _
  | b :: t, h, x, hx => by
    simp only [List.foldl_cons]
    have hstep : ∀ y ∈ (if h < b then b else h) :: t,
        y ≤ t.foldl (fun acc b => if acc < b then b else acc) (if h < b then b else h) :=
      fun y hy => foldl_max_ge t _ y hy
    have hhead := hstep _ (List.mem_cons_self _ _)
    rcases List.mem_cons.mp hx with rfl | hx'
    · refine le_trans ?_ hhead
      by_cases hb : x < b
      · rw [if_pos hb]; exact le_of_lt hb
      · rw [if_neg hb]
    · rcases List.mem_cons.mp hx' with rfl | hx''
      · refine le_trans ?_ hhead
        by_cases hb : h < x
        · rw [if_pos hb]
        · rw [if_neg hb]; exact le_of_not_lt hb
      · exact hstep x (List.mem_cons_of_mem _ hx'')

theorem listMin_some_spec {l : List ℚ} {m : ℚ} (h : listMin l = some m) :
    m ∈ l ∧ ∀ x ∈ l, m ≤ x := by
  cases l with
  | nil => exact Option.noConfusion h
  | cons a t =>
    rw [listMin] at h
    have hm := (Option.some.inj h).symm
    subst hm
    exact ⟨foldl_min_mem t a, fun x hx => foldl_min_le t a x hx⟩

theorem listMax_some_spec {l : List ℚ} {m : ℚ} (h : listMax l = some m) :
    m ∈ l ∧ ∀ x ∈ l, x ≤ m := by
  cases l with
  | nil => exact Option.noConfusion h
  | cons a t =>
    rw [listMax] at h
    have hm := (Option.some.inj h).symm
    subst hm
    exact ⟨foldl_max_mem t a, fun x hx => foldl_max_ge t a x hx⟩

theorem tallyStops_go_sum : ∀ (l : List Offer) (c : StopsCounts),
    (l.foldl (fun c o =>
        if o.stops ≤ 0 then { c with zero := c.zero + 1 }
        else if o.stops = 1 then { c with one := c.one + 1 }
        else { c with twoPlus := c.twoPlus + 1 }) c).zero +
      (l.foldl (fun c o =>
        if o.stops ≤ 0 then { c with zero := c.zero + 1 }
        else if o.stops = 1 then { c with one := c.one + 1 }
        else { c with twoPlus := c.twoPlus + 1 }) c).one +
      (l.foldl (fun c o =>
        if o.stops ≤ 0 then { c with zero := c.zero + 1 }
        else if o.stops = 1 then { c with one := c.one + 1 }
        else { c with twoPlus := c.twoPlus + 1 }) c).twoPlus =
      c.zero + c.one + c.twoPlus + l.length
  | [], c => by simp
  | o :: t, c => by
    simp only [List.foldl_cons, List.length_cons]
    rw [tallyStops_go_sum t]
    split_ifs <;> dsimp only <;> omega

theorem tallyStops_sum (l : List Offer) :
    (tallyStops l).zero + (tallyStops l).one + (tallyStops l).twoPlus = l.length := by
  unfold tallyStops
  rw [tallyStops_go_sum l ⟨0, 0, 0⟩]
  simp

theorem airlines_inner_from : ∀ (as : List Airline) (acc : List (String × String))
    (p : String × String),
    p ∈ as.foldl (fun acc a =>
      if a.code.data.isEmpty then acc
      else
        let pair := (a.code, pyOrS (some a.name) a.code)
        if pair ∈ acc then acc else acc ++ [pair]) acc →
    p ∈ acc ∨ ∃ a ∈ as, a.code = p.1
  | [], _, _, h => Or.inl h
  | a :: as, acc, p, h => by
    simp only [List.foldl_cons] at h
    rcases airlines_inner_from as _ p h with h' | ⟨a', ha', hc⟩
    · by_cases he : a.code.data.isEmpty = true
      · rw [if_pos he] at h'
        exact Or.inl h'
      · rw [if_neg he] at h'
        by_cases hp : (a.code, pyOrS (some a.name) a.code) ∈ acc
        · rw [if_pos hp] at h'
          exact Or.inl h'
        · rw [if_neg hp] at h'
          rcases List.mem_append.mp h' with h'' | h''
          · exact Or.inl h''
          · rcases List.mem_singleton.mp h'' with rfl
            exact Or.inr ⟨a, List.mem_cons_self _ _, rfl⟩
    · exact Or.inr ⟨a', List.mem_cons_of_mem _ ha', hc⟩

theorem collectAirlinePairs_from : ∀ (l : List Offer) (acc : List (String × String))
    (p : String × String),
    p ∈ l.foldl (fun acc o =>
      o.airlines.foldl (fun acc a =>
        if a.code.data.isEmpty then acc
        else
          let pair := (a.code, pyOrS (some a.name) a.code)
          if pair ∈ acc then acc else acc ++ [pair]) acc) acc →
    p ∈ acc ∨ ∃ o ∈ l, ∃ a ∈ o.airlines, a.code = p.1
  | [], _, _, h => Or.inl h
  | o :: l, acc, p, h => by
    simp only [List.foldl_cons] at h
    rcases collectAirlinePairs_from l _ p h with h' | ⟨o', ho', a', ha', hc⟩
    · rcases airlines_inner_from o.airlines acc p h' with h'' | ⟨a', ha', hc⟩
      · exact Or.inl h''
      · exact Or.inr ⟨o, List.mem_cons_self _ _, a', ha', hc⟩
    · exact Or.inr ⟨o', List.mem_cons_of_mem _ ho', a', ha', hc⟩

theorem listMin_map_nil {L : List Offer} (h : L = []) :
    listMin (L.map fun o => o.price.total) = none := by
  subst h; rfl

theorem listMax_map_nil {L : List Offer} (h : L = []) :
    listMax (L.map fun o => o.price.total) = none := by
  subst h; rfl

/-- C6: in any result assembled from upstream data (cache reads bypassed),
meta's min/max price are exactly the minimum/maximum over the final offer
list (null when it is empty), the stop histogram is tallied from the final
list and sums to its length, and every airline in meta occurs in some final
offer. -/
theorem meta_consistency (env : Env) (params : Params) (res : SearchResult)
    (hb : params.bypassCache = true)
    (h : (search_flights env params).result = .ok res) :
    res.meta.minPrice = listMin (res.offers.map fun o => o.price.total) ∧
    res.meta.maxPrice = listMax (res.offers.map fun o => o.price.total) ∧
    (res.offers = [] → res.meta.minPrice = none ∧ res.meta.maxPrice = none) ∧
    (∀ m, res.meta.minPrice = some m →
      m ∈ res.offers.map (fun o => o.price.total) ∧
      ∀ q ∈ res.offers.map (fun o => o.price.total), m ≤ q) ∧
    (∀ m, res.meta.maxPrice = some m →
      m ∈ res.offers.map (fun o => o.price.total) ∧
      ∀ q ∈ res.offers.map (fun o => o.price.total), q ≤ m) ∧
    res.meta.stopsCounts = tallyStops res.offers ∧
    res.meta.stopsCounts.zero + res.meta.stopsCounts.one +
      res.meta.stopsCounts.twoPlus = res.offers.length ∧
    (∀ a ∈ res.meta.airlines, ∃ o ∈ res.offers, ∃ al ∈ o.airlines, al.code = a.code) := by
  rw [search_bypass_shape env params hb] at h
  cases ha : env.apiKey with
  | false => rw [ha] at h; exact absurd h (by simp)
  | true =>
    rw [ha] at h
    simp only [Bool.not_true, Bool.false_eq_true, if_false] at h
    cases hl : env.listFetch with
    | error e => rw [hl] at h; exact absurd h (by simp)
    | ok raws =>
      rw [hl] at h
      dsimp only at h
      split at h
      · exact absurd h (by simp)
      · rename_i offers0 hn
        unfold assemble at h
        dsimp only at h
        split at h
        · exact absurd h (by simp)
        · have hres := (Except.ok.inj h).symm
          subst hres
          refine ⟨rfl, rfl, ?_, ?_, ?_, rfl, ?_, ?_⟩
          · intro he
            exact ⟨listMin_map_nil he, listMax_map_nil he⟩
          · intro m hm
            exact listMin_some_spec hm
          · intro m hm
            exact listMax_some_spec hm
          · exact tallyStops_sum _
          · intro a ha'
            dsimp only at ha'
            rcases List.mem_map.mp ha' with ⟨p, hp, hmk⟩
            have hpc : p ∈ collectAirlinePairs
                ((_sort_offers (_dedupe_offers offers0)
                  (pyOrS params.sort "cheapest")).take
                  (max 1 (min (resolveLimit params.limit) 100)).toNat) :=
              (List.perm_insertionSort _ _).mem_iff.mp hp
            rcases collectAirlinePairs_from _ [] p hpc with h' | ⟨o, ho, al, hal, hc⟩
            · exact absurd h' (List.not_mem_nil p)
            · exact ⟨o, ho, al, hal, by rw [← hmk]; exact hc⟩

/-- C6, witness: the concrete two-offer run has min price 300, max 450, and
a histogram summing to the number of returned offers. -/
theorem meta_consistency_witness :
    (resOf envBase pBase).meta.minPrice =
      listMin ((resOf envBase pBase).offers.map fun o => o.price.total) ∧
    (resOf envBase pBase).meta.stopsCounts.zero +
      (resOf envBase pBase).meta.stopsCounts.one +
      (resOf envBase pBase).meta.stopsCounts.twoPlus =
      (resOf envBase pBase).offers.length ∧
    (resOf envBase pBase).meta.minPrice = some 300 ∧
    (resOf envBase pBase).meta.maxPrice = some 450 := by
  have h := meta_consistency envBase pBase (resOf envBase pBase) rfl (by decide)
  exact ⟨h.1, h.2.2.2.2.2.2.1, by decide, by decide⟩

/-! ### Error-handling lemmas -/

theorem normalizeOne_isOk {qpO qpD : Option String} {ms : Option Int}
    {al : Option (List String)} {dc : String} {i : ℕ} {r : RawOffer}
    (hp : (_parse_price r.priceVal).isOk = true) :
    ∃ o?, normalizeOne qpO qpD ms al dc i r = .ok o? := by
  unfold normalizeOne
  cases hpp : _parse_price r.priceVal with
  | error e => rw [hpp] at hp; exact absurd hp (by simp [Except.isOk, Except.toBool])
  | ok q =>
    dsimp only
    split
    · split
      · exact ⟨_, rfl⟩
      · split
        · exact ⟨_, rfl⟩
        · split
          · exact ⟨_, rfl⟩
          · exact ⟨_, rfl⟩
    · split
      · exact ⟨_, rfl⟩
      · split
        · exact ⟨_, rfl⟩
        · split
          · exact ⟨_, rfl⟩
          · exact ⟨_, rfl⟩

theorem normalizeAll_ok {qpO qpD : Option String} {ms : Option Int}
    {al : Option (List String)} {dc : String} :
    ∀ (idx : ℕ) (raws : List RawOffer),
      (∀ r ∈ raws, (_parse_price r.priceVal).isOk = true) →
      ∃ offers, normalizeAll qpO qpD ms al dc idx raws = .ok offers
  | _, [], _ => ⟨[], rfl⟩
  | idx, r :: rest, hall => by
    obtain ⟨o?, ho⟩ := @normalizeOne_isOk qpO qpD ms al dc idx r
      (hall r (List.mem_cons_self _ _))
    obtain ⟨tail, ht⟩ := @normalizeAll_ok qpO qpD ms al dc (idx + 1) rest
      (fun x hx => hall x (List.mem_cons_of_mem _ hx))
    refine ⟨(match o? with | some o => o :: tail | none => tail), ?_⟩
    rw [normalizeAll]
    simp only [ho, ht]
    cases o? <;> rfl

/-- When every successful everywhere fetch also normalizes without a
ValueError, the reconciliation stage cannot fail. -/
theorem priceHistoryStage_isOk {env : Env} {params : Params} {offers : List Offer}
    (he : ∀ items, env.everywhereFetch = .ok items →
      (_normalize_price_history_from_everywhere items).isOk = true) :
    ∃ ph, priceHistoryStage env params offers = .ok ph := by
  unfold priceHistoryStage everywhereStep
  split
  · split
    · cases hev : env.everywhereFetch with
      | ok items =>
        dsimp only
        have hok := he items hev
        cases hnm : _normalize_price_history_from_everywhere items with
        | error e =>
          rw [hnm] at hok
          exact absurd hok (by simp [Except.isOk, Except.toBool])
        | ok hh => exact ⟨_, rfl⟩
      | error e => exact ⟨_, rfl⟩
    · exact ⟨_, rfl⟩
  · exact ⟨_, rfl⟩

/-- C9, counterexample: the primary list fetch succeeds, yet a malformed
quote price in the search-everywhere fallback ("KES 1.234.567" cleans to a
two-dot residue) raises a ValueError past the `except ProviderError` handler
of line 1064 and aborts the whole search — so a price-history sub-fetch
failure can abort the search, not only the primary list fetch. -/
theorem everywhere_valueerror_aborts_cex :
    envEverywhereBad.listFetch = .ok [rawTwoSeg, rawCheap] ∧
    (search_flights envEverywhereBad pBase).result = .error .valueError :=
  ⟨rfl, by decide⟩

/-- C9 (amended): a ProviderError raised while fetching or normalizing the
Google price-graph source, or while fetching the search-everywhere quote
fallback (including the locally raised error for missing entity ids), is
swallowed and the search completes — both oracles are universally
quantified, so any of their ProviderError outcomes is covered — and a
primary list-fetch failure aborts the search with exactly that provider
error; however the ValueError that `_parse_price` can raise while
normalizing a search-everywhere quote price is not caught by the
`except ProviderError` handler, so the search only completes when every
successfully fetched quote list also normalizes without it. -/
theorem provider_errors_swallowed_spec :
    (∀ (env : Env) (params : Params) (raws : List RawOffer),
      env.apiKey = true → env.listFetch = .ok raws →
      (∀ r ∈ raws, (_parse_price r.priceVal).isOk = true) →
      (∀ items, env.everywhereFetch = .ok items →
        (_normalize_price_history_from_everywhere items).isOk = true) →
      (search_flights env params).result.isOk = true) ∧
    (∀ (env : Env) (params : Params) (e : ProvErr),
      env.apiKey = true → params.bypassCache = true → env.listFetch = .error e →
      (search_flights env params).result = .error (.provider e)) := by
  constructor
  · intro env params raws ha hl hprices he
    unfold search_flights
    rw [ha]
    simp only [Bool.not_true, Bool.false_eq_true, if_false]
    cases hch : cacheHitPayload env params with
    | some payload => rfl
    | none =>
      rw [hl]
      dsimp only
      obtain ⟨offers0, hn⟩ := normalizeAll_ok 0 raws hprices
      rw [hn]
      dsimp only
      unfold assemble
      dsimp only
      obtain ⟨ph, hst⟩ := @priceHistoryStage_isOk env params
        (_sort_offers (_dedupe_offers offers0) (pyOrS params.sort "cheapest")) he
      rw [hst]
      rfl
  · intro env params e ha hb hl
    rw [search_bypass_shape env params hb, ha]
    simp only [Bool.not_true, Bool.false_eq_true, if_false, hl]

/-- C9, witness: with the graph oracle failing and a well-formed quote list,
the concrete search succeeds; with the list fetch failing it surfaces that
very error. -/
theorem provider_errors_swallowed_spec_witness :
    (search_flights envEverywhereOk pBase).result.isOk = true ∧
    (search_flights { envBase with listFetch := .error ⟨"list down", 502⟩ } pBase).result =
      .error (.provider ⟨"list down", 502⟩) := by
  constructor
  · refine provider_errors_swallowed_spec.1 envEverywhereOk pBase [rawTwoSeg, rawCheap]
      rfl rfl (by decide) ?_
    intro items h
    have h' := Except.ok.inj h
    subst h'
    decide
  · exact provider_errors_swallowed_spec.2 _ pBase _ rfl rfl rfl

/-! ### Cache-bypass lemmas -/

/-- The assembly step never reads the response cache. -/
theorem assemble_respCache_free (env : Env) (c : Option RespEntry) (params : Params)
    (offers0 : List Offer) :
    assemble { env with respCache := c } params offers0 = assemble env params offers0 := rfl

/-- The miss-path shape for a response-cache-modified environment, with the
assembly written in terms of the original environment. -/
theorem search_respCache_shape (env : Env) (c : Option RespEntry) (params : Params)
    (hb : params.bypassCache = true) :
    search_flights { env with respCache := c } params =
      (if !env.apiKey then
        { result := .error (.provider ⟨"Sky-Scraper API key is not configured.", 500⟩)
          respWrite := none, curveWrite := none }
      else
        match env.listFetch with
        | .error e => { result := .error (.provider e), respWrite := none, curveWrite := none }
        | .ok raws =>
          match normalizeAll params.origin params.destination
              (resolveMaxStops params.maxStops)
              (resolveAllowedAirlines params.allowedAirlines)
              (pyOrS (some (pyOrS params.currency env.defaultCurrency)) env.defaultCurrency)
              0 raws with
          | .error _ => { result := .error .valueError, respWrite := none, curveWrite := none }
          | .ok offers0 => assemble env params offers0) :=
  search_bypass_shape { env with respCache := c } params hb

/-- C1, counterexample: a bypassing query against a warm cache completes but
writes nothing back to the response cache, contradicting the claim that the
assembled result is still stored. -/
theorem bypass_cache_write_skipped_cex :
    (search_flights envWarm pBase).result.isOk = true ∧
    (search_flights envWarm pBase).respWrite = none ∧
    pBase.bypassCache = true := by
  exact ⟨by decide, by decide, rfl⟩

/-- C1 (amended): a cache-bypass flag skips the response-cache read (the
outcome is independent of whatever the cache holds) and also skips the
response-cache write — the cache is not kept warm by bypassing requests. -/
theorem bypass_cache_skips_read_and_write (env : Env) (params : Params)
    (hb : params.bypassCache = true) :
    (search_flights env params).respWrite = none ∧
    (∀ c : Option RespEntry,
      search_flights { env with respCache := c } params = search_flights env params) := by
  constructor
  · rw [search_bypass_shape env params hb]
    cases ha : env.apiKey with
    | false => rfl
    | true =>
      simp only [Bool.not_true, Bool.false_eq_true, if_false]
      cases hl : env.listFetch with
      | error e => rfl
      | ok raws =>
        dsimp only
        cases hn : normalizeAll params.origin params.destination
            (resolveMaxStops params.maxStops)
            (resolveAllowedAirlines params.allowedAirlines)
            (pyOrS (some (pyOrS params.currency env.defaultCurrency)) env.defaultCurrency)
            0 raws with
        | error e => rfl
        | ok offers0 =>
          unfold assemble
          dsimp only
          cases priceHistoryStage env params
              (_sort_offers (_dedupe_offers offers0) (pyOrS params.sort "cheapest")) with
          | error e => rfl
          | ok ph =>
            dsimp only
            rw [hb]
            rfl
  · intro c
    rw [search_respCache_shape env c params hb, search_bypass_shape env params hb]

/-- C1, witness for the amended theorem at the concrete warm-cache run. -/
theorem bypass_cache_skips_read_and_write_witness :
    (search_flights envBase pBase).respWrite = none ∧
    search_flights { envBase with respCache := envWarm.respCache } pBase =
      search_flights envBase pBase :=
  ⟨(bypass_cache_skips_read_and_write envBase pBase rfl).1,
   (bypass_cache_skips_read_and_write envBase pBase rfl).2 envWarm.respCache⟩

/-! ### Airport rewrite lemmas -/

/-- C10, counterexample: queries for NYC and NYCA rewrite to the same
departureId, but the list query also echoes the raw origin (line 690), so
the two upstream list requests are not identical. -/
theorem raw_origin_echo_in_list_query_cex :
    buildListQuery "USD" pNYC ≠ buildListQuery "USD" pNYCA ∧
    (buildListQuery "USD" pNYC).departureId = (buildListQuery "USD" pNYCA).departureId ∧
    (buildListQuery "USD" pNYC).departureId = some "JFK" :=
  ⟨by decide, by decide, by decide⟩

/-- C10 (amended): origin and destination are rewritten through
_to_google_airport — a 4-letter code ending in A is truncated to its first 3
letters, then NYC/LON/PAR map to JFK/LHR/CDG and anything else passes
through — and the rewritten codes form the departure/arrival ids of the list
query, the price-graph query and the curve cache key, so NYC, NYCA and JFK
produce identical price-graph requests and share one curve-cache entry; the
list request however also echoes the raw origin/destination, so it is not
identical across those inputs. -/
theorem google_airport_rewrite_spec :
    (∀ s : String, s.data ≠ [] → stripUpper s = s →
      s.data.length = 4 → s.data.getLast? = some 'A' →
      _to_google_airport (some s) =
        some ((CITY_TO_DEFAULT_AIRPORT ⟨s.data.take 3⟩).getD ⟨s.data.take 3⟩)) ∧
    (∀ s : String, s.data ≠ [] → stripUpper s = s →
      ¬(s.data.length = 4 ∧ s.data.getLast? = some 'A') →
      CITY_TO_DEFAULT_AIRPORT s = none →
      _to_google_airport (some s) = some s) ∧
    (_to_google_airport (some "NYC") = some "JFK" ∧
     _to_google_airport (some "NYCA") = some "JFK" ∧
     _to_google_airport (some "JFK") = some "JFK" ∧
     _to_google_airport (some "LON") = some "LHR" ∧
     _to_google_airport (some "PAR") = some "CDG") ∧
    (∀ (dc : String) (p : Params),
      (buildListQuery dc p).departureId = _to_google_airport p.origin ∧
      (buildListQuery dc p).arrivalId = _to_google_airport p.destination ∧
      (buildGraphQuery p).departureId = _to_google_airport p.origin ∧
      (buildGraphQuery p).arrivalId = _to_google_airport p.destination ∧
      curveKeyOf p = _google_curve_cache_key (_to_google_airport p.origin)
        (_to_google_airport p.destination) (some p.departDate) p.returnDate p.currency) ∧
    (buildGraphQuery pNYC = buildGraphQuery pNYCA ∧
     buildGraphQuery pNYCA = buildGraphQuery pBase ∧
     curveKeyOf pNYC = curveKeyOf pNYCA ∧
     curveKeyOf pNYCA = curveKeyOf pBase) := by
  refine ⟨?_, ?_, by decide, fun dc p => ⟨rfl, rfl, rfl, rfl, rfl⟩, by decide⟩
  · intro s hne hsu h4 hA
    unfold _to_google_airport
    dsimp only
    rw [if_neg (by simp [List.isEmpty_iff, hne]), hsu, if_pos ⟨h4, hA⟩]
  · intro s hne hsu hshape hmap
    unfold _to_google_airport
    dsimp only
    rw [if_neg (by simp [List.isEmpty_iff, hne]), hsu, if_neg hshape, hmap]
    rfl

/-- C10, witness: a non-special airport code passes through unchanged and a
non-special 4-letter entity id is truncated. -/
theorem google_airport_rewrite_spec_witness :
    _to_google_airport (some "NBOA") =
      some ((CITY_TO_DEFAULT_AIRPORT ⟨"NBOA".data.take 3⟩).getD ⟨"NBOA".data.take 3⟩) ∧
    _to_google_airport (some "NBO") = some "NBO" :=
  ⟨google_airport_rewrite_spec.1 "NBOA" (by decide) (by decide) (by decide) (by decide),
   google_airport_rewrite_spec.2.1 "NBO" (by decide) (by decide) (by decide) (by decide)⟩

end FlightSearch
